import Mathlib

/-!
Verification of `backend/core/doorController.py` (Face-detection-system).

The file embeds the `DoorController` class shallowly:

* `DoorController` — the instance fields (`_initialized`, `status`,
  `_door_lock`, `led_path`).  The lock is modelled as a `Bool`
  (`true` = held), matching `threading.Lock` with only non-blocking
  acquisition (`acquire(blocking=False)`) and `release`.
* `DoorController.set_led` — embeds `_set_led`: the clamp
  `max(0, min(255, brightness))`, the single sysfs write of the decimal
  string, and the `except PermissionError` / `except Exception` handlers
  that swallow every write failure.  The write's external outcome is a
  `WriteOutcome` parameter (the environment decides whether the device
  write succeeds); the function's own behaviour does not depend on it,
  which is exactly the "swallowed" semantics.
* `DoorController.openDoor` — embeds `open` (the Lean keyword `open`
  forces the rename): non-blocking acquire, the `try` body as a list of
  atomic steps (`_set_led(255)`, `status = True`, `time.sleep`,
  `_set_led(0)`, `status = False`), a `finally` that releases the lock,
  and an optional injected raw fault (a `BaseException`-style fault not
  caught by `_set_led`'s handlers) at any step of the body, which makes
  the abnormal exit path explicit.  `DOOR_OPEN_DURATION` comes from
  `backend.config`, outside this repository slice, so the hold duration
  is a parameter `d`.
* `DoorController.init` / `DoorController.init_on` — embed `__init__`
  (fresh construction, and re-invocation on an existing object with the
  `_initialized` guard).  `LED_SYSFS_PATH` is likewise a parameter, and
  `Path.exists` is an environment predicate.
* `get_door_controller` — the lazy global singleton.

A separate interleaving model (`Sys`, `sysStep`, `runSys`) embeds N
threads each running `open` once, for the mutual-exclusion claims.
-/

/-- Python value returned by `DoorController.open`: the method has a bare
`return` on the busy path and falls off the end otherwise, so the only
value it can produce is `None`; `bool` is included so that "returns
`True`/`False`" is expressible (and refutable). -/
inductive PyVal where
  | pynone : PyVal
  | pybool : Bool → PyVal
deriving DecidableEq, Repr

/-- Outcome of one attempted device write, decided by the environment:
success, `PermissionError`, or any other I/O `Exception`.  Both failure
kinds are caught inside `_set_led`. -/
inductive WriteOutcome where
  | ok : WriteOutcome
  | permError : WriteOutcome
  | ioError : WriteOutcome
deriving DecidableEq, Repr

/-- Observable events of a run: an attempted device write (the decimal
string written and how the device answered) and the hold sleep. -/
inductive Event where
  | write : String → WriteOutcome → Event
  | sleep : Nat → Event
deriving DecidableEq, Repr

/-- The instance state of the Python `DoorController` object. -/
structure DoorController where
  initializedFlag : Bool
  status : Bool
  door_lock : Bool
  led_path : Option String
deriving DecidableEq, Repr

/-- Embeds the clamp `brightness = max(0, min(255, brightness))` from
`_set_led`. -/
def clampBrightness (b : Int) : Int :=
  max 0 (min 255 b)

/-- Embeds `DoorController._set_led`.  With no `led_path` it only logs and
returns; with a path it performs exactly one write of
`str(max(0, min(255, brightness)))`.  A `PermissionError` or any other
`Exception` from the write is caught and logged, so the method returns
normally whatever `w` is; it touches no instance field.  The returned
list is the emitted event trace. -/
def DoorController.set_led (c : DoorController) (brightness : Int)
    (w : WriteOutcome) : List Event :=
  match c.led_path with
  | none => []
  | some _ => [Event.write (toString (clampBrightness brightness)) w]

/-- The atomic statements of the `try` body of `DoorController.open`, in
source order. -/
inductive Step where
  | assertWrite : Step
  | statusTrue : Step
  | sleepStep : Step
  | deassertWrite : Step
  | statusFalse : Step
deriving DecidableEq, Repr

/-- The `try` body of `open`: `_set_led(255)`; `self.status = True`;
`time.sleep(DOOR_OPEN_DURATION)`; `_set_led(0)`; `self.status = False`. -/
def openBody : List Step :=
  [Step.assertWrite, Step.statusTrue, Step.sleepStep,
   Step.deassertWrite, Step.statusFalse]

/-- Effect of one body statement on the instance and the event trace.
`d` is `DOOR_OPEN_DURATION`; `w1`, `w2` are the environment's answers to
the assert and de-assert writes. -/
def execStep (d : Nat) (w1 w2 : WriteOutcome)
    (s : DoorController × List Event) : Step → DoorController × List Event
  | Step.assertWrite => (s.1, s.2 ++ s.1.set_led 255 w1)
  | Step.statusTrue => ({ s.1 with status := true }, s.2)
  | Step.sleepStep => (s.1, s.2 ++ [Event.sleep d])
  | Step.deassertWrite => (s.1, s.2 ++ s.1.set_led 0 w2)
  | Step.statusFalse => ({ s.1 with status := false }, s.2)

/-- Runs the body statements in order until an optionally injected raw
fault (a `BaseException`-style fault that `_set_led`'s handlers do not
catch, e.g. during the sleep).  Returns the state/trace reached and
whether the body raised. -/
def runBody (d : Nat) (w1 w2 : WriteOutcome) (fault : Option Step) :
    DoorController × List Event → List Step →
    (DoorController × List Event) × Bool
  | s, [] => (s, false)
  | s, st :: rest =>
      if fault = some st then (s, true)
      else runBody d w1 w2 fault (execStep d w1 w2 s st) rest

/-- Result of one call of `open`: the instance state afterwards, the
event trace, and either the returned Python value or a raised fault. -/
inductive OpenRes where
  | ret : PyVal → OpenRes
  | raised : OpenRes
deriving DecidableEq, Repr

/-- Bundled outcome of `DoorController.open`. -/
structure OpenOut where
  ctrl : DoorController
  events : List Event
  res : OpenRes
deriving DecidableEq, Repr

/-- Embeds `DoorController.open` (renamed: `open` is a Lean keyword).
`self._door_lock.acquire(blocking=False)` fails iff the lock is held, in
which case the method logs and returns `None` at once.  Otherwise the
`try` body runs (possibly cut short by an injected raw fault) and the
`finally` releases the lock on every exit path; a completed body returns
`None`, a faulted body re-raises after the `finally`. -/
def DoorController.openDoor (c : DoorController) (d : Nat)
    (w1 w2 : WriteOutcome) (fault : Option Step) : OpenOut :=
  if c.door_lock then
    { ctrl := c, events := [], res := OpenRes.ret PyVal.pynone }
  else
    let acquired : DoorController := { c with door_lock := true }
    let r := runBody d w1 w2 fault (acquired, []) openBody
    { ctrl := { r.1.1 with door_lock := false }
      events := r.1.2
      res := if r.2 then OpenRes.raised else OpenRes.ret PyVal.pynone }

/-- Embeds a fresh run of `DoorController.__init__` (the `_initialized`
guard not yet set).  `cfg` is `LED_SYSFS_PATH` (`none` when not
configured), `pathExists` is the filesystem's answer to `Path.exists`,
`status` the constructor argument, `w` the device's answer to the
power-on de-assert write.  Returns the constructed instance and the
event trace. -/
def DoorController.init (cfg : Option String) (pathExists : String → Bool)
    (status : Bool) (w : WriteOutcome) : DoorController × List Event :=
  let c0 : DoorController :=
    { initializedFlag := true, status := status, door_lock := false
      led_path := cfg }
  match cfg with
  | some p =>
      if pathExists p then (c0, c0.set_led 0 w)
      else ({ c0 with led_path := none }, [])
  | none => (c0, [])

/-- Embeds invoking `__init__` on an existing object: the
`hasattr(self, "_initialized")` guard returns immediately when the flag
is set; otherwise the constructor body runs. -/
def DoorController.init_on (c : DoorController) (cfg : Option String)
    (pathExists : String → Bool) (status : Bool) (w : WriteOutcome) :
    DoorController × List Event :=
  if c.initializedFlag then (c, [])
  else DoorController.init cfg pathExists status w

/-- Embeds `get_door_controller`: the module-global
`_door_controller_instance` is the input/output `Option DoorController`;
on `none` a fresh `DoorController()` (default `status=False`) is built
and stored. -/
def get_door_controller (g : Option DoorController) (cfg : Option String)
    (pathExists : String → Bool) (w : WriteOutcome) :
    DoorController × Option DoorController × List Event :=
  match g with
  | some c => (c, some c, [])
  | none =>
      let r := DoorController.init cfg pathExists false w
      (r.1, some r.1, r.2)

/-- The device writes of a trace (payload and outcome), in order. -/
def writesOf : List Event → List (String × WriteOutcome)
  | [] => []
  | Event.write p w :: rest => (p, w) :: writesOf rest
  | Event.sleep _ :: rest => writesOf rest

/-- Shape of an event with the device's answer erased, to state that
write failures do not change the behaviour. -/
def eventShape : Event → String ⊕ Nat
  | Event.write p _ => Sum.inl p
  | Event.sleep d => Sum.inr d

/-- A concrete idle controller bound to a device, for witnesses. -/
def idleBound : DoorController :=
  { initializedFlag := true, status := false, door_lock := false
    led_path := some "/sys/class/leds/led9/brightness" }

/-- The same controller with the admission lock held. -/
def busyBound : DoorController :=
  { idleBound with door_lock := true }

/-!
Interleaving model for the concurrency claim: `n` threads each call
`open` once on the shared instance.  A thread's program counter is
either `trying` (about to run `acquire(blocking=False)`), `body rest`
(admitted, the listed statements of the `try` body still to run, then
the `finally` release), `doneOk` (returned after a complete activation)
or `doneBusy` (returned rejected).  `acquire(blocking=False)` is one
atomic action: it either fails at once (the thread returns, `doneBusy`)
or takes the lock and enters the body.  The shared state is the lock and
the `status` field; each scheduler step runs one atomic action of one
thread. -/

/-- Program counter of one thread running `DoorController.open` once. -/
inductive PC where
  | trying : PC
  | body : List Step → PC
  | doneOk : PC
  | doneBusy : PC
deriving DecidableEq, Repr

/-- A thread is inside the admitted region (between the successful
acquire and the release). -/
def PC.isBody : PC → Bool
  | PC.body _ => true
  | _ => false

/-- Effect of one `try`-body statement on the shared `status` field (the
device writes and the sleep do not touch the instance fields). -/
def stepStatus : Step → Bool → Bool
  | Step.statusTrue, _ => true
  | Step.statusFalse, _ => false
  | _, b => b

/-- Shared state plus all thread program counters. -/
structure Sys (n : Nat) where
  pcs : Fin n → PC
  lock : Bool
  status : Bool

/-- One atomic action of a thread at a given program counter. -/
def pcStep {n : Nat} (s : Sys n) (i : Fin n) : PC → Sys n
  | PC.trying =>
      if s.lock then
        { s with pcs := Function.update s.pcs i PC.doneBusy }
      else
        { s with lock := true
                 pcs := Function.update s.pcs i (PC.body openBody) }
  | PC.body [] =>
      { s with lock := false, pcs := Function.update s.pcs i PC.doneOk }
  | PC.body (st :: rest) =>
      { s with status := stepStatus st s.status
               pcs := Function.update s.pcs i (PC.body rest) }
  | PC.doneOk => s
  | PC.doneBusy => s

/-- The scheduler lets thread `i` run its next atomic action. -/
def sysStep {n : Nat} (s : Sys n) (i : Fin n) : Sys n :=
  pcStep s i (s.pcs i)

/-- Run a whole schedule (a list of thread choices). -/
def runSys {n : Nat} (s : Sys n) (l : List (Fin n)) : Sys n :=
  List.foldl sysStep s l

/-- All `n` threads about to call `open` on a fresh idle instance. -/
def initSys (n : Nat) : Sys n :=
  { pcs := fun _ => PC.trying, lock := false, status := false }

/-- The mutual-exclusion invariant: distinct threads are never both in
the admitted region; with the lock free no thread is in it; with the
lock held some thread is in it. -/
def exclusiveInv {n : Nat} (s : Sys n) : Prop :=
  (∀ i j : Fin n, (s.pcs i).isBody = true → (s.pcs j).isBody = true →
    i = j) ∧
  (s.lock = false → ∀ i, (s.pcs i).isBody = false) ∧
  (s.lock = true → ∃ i, (s.pcs i).isBody = true)

/-- A rejected thread exists only because the lock was held when it
tried, so either the lock is still held or some activation has already
completed (released at the `finally`, reaching `doneOk`). -/
def busyInv {n : Nat} (s : Sys n) : Prop :=
  (∃ i, s.pcs i = PC.doneBusy) →
    (s.lock = true ∨ ∃ j, s.pcs j = PC.doneOk)

/-- With no injected raw fault, the try body never raises. -/
theorem runBody_none_ok (d : Nat) (w1 w2 : WriteOutcome)
    (s : DoorController × List Event) (l : List Step) :
    (runBody d w1 w2 none s l).2 = false := by
  induction l generalizing s with
  | nil => rfl
  | cons st rest ih => simpa [runBody] using ih _

/-- Full computation of the fault-free try body: both writes and the
sleep happen in source order, `status` ends `false`, and no other field
changes. -/
theorem runBody_none_openBody (d : Nat) (w1 w2 : WriteOutcome)
    (c : DoorController) (ev : List Event) :
    runBody d w1 w2 none (c, ev) openBody =
      (({ c with status := false },
        ev ++ c.set_led 255 w1 ++ [Event.sleep d] ++ c.set_led 0 w2),
       false) := rfl

/-- Claim C1, counterexample: `DoorController.open` does not return a
boolean.  At a concrete idle controller the admitted, completed call
returns `None` (not `True`), and at a concrete busy controller the
rejected call also returns `None` (not `False`). -/
theorem c1_counterexample :
    (idleBound.openDoor 3 WriteOutcome.ok WriteOutcome.ok none).res ≠
        OpenRes.ret (PyVal.pybool true) ∧
      (busyBound.openDoor 3 WriteOutcome.ok WriteOutcome.ok none).res ≠
        OpenRes.ret (PyVal.pybool false) := by
  decide

/-- Claim C1, amended: `open` never returns a boolean.  Every call either
raises (only under an injected raw fault) or returns Python `None`; in
particular every fault-free call returns `None`, whether it won admission
and ran to completion or was rejected busy.  The two outcomes are
distinguished only by the side effects, never by the returned value. -/
theorem c1_amended_returns_none (c : DoorController) (d : Nat)
    (w1 w2 : WriteOutcome) (f : Option Step) :
    ((c.openDoor d w1 w2 f).res = OpenRes.raised ∨
      (c.openDoor d w1 w2 f).res = OpenRes.ret PyVal.pynone) ∧
    (c.openDoor d w1 w2 none).res = OpenRes.ret PyVal.pynone := by
  constructor
  · unfold DoorController.openDoor
    by_cases h : c.door_lock
    · simp [h]
    · simp only [h, if_false]
      cases hr : (runBody d w1 w2 f ({ c with door_lock := true }, []) openBody).2 <;>
        simp [hr]
  · unfold DoorController.openDoor
    by_cases h : c.door_lock
    · simp [h]
    · simp [h, runBody_none_ok]

/-- Claim C2: for every admitted activation (the lock free at entry), the
`finally` releases the admission lock on every exit path — for every
write outcome and every injected raw fault, whether the call returns or
raises, the lock is free afterwards. -/
theorem c2_lock_released (c : DoorController) (d : Nat)
    (w1 w2 : WriteOutcome) (f : Option Step) :
    (({ c with door_lock := false }).openDoor d w1 w2 f).ctrl.door_lock =
      false := rfl

/-- Claim C4: a rejected call (lock already held at entry) returns `None`
immediately with the instance unchanged, no events — no device write and
no sleep. -/
theorem c4_rejected_no_effects (c : DoorController) (d : Nat)
    (w1 w2 : WriteOutcome) (f : Option Step) :
    ({ c with door_lock := true }).openDoor d w1 w2 f =
      { ctrl := { c with door_lock := true }, events := []
        res := OpenRes.ret PyVal.pynone } := rfl

/-- Claim C5: an admitted, unfaulted activation with a device bound
performs exactly two device writes, the assert write of "255" and then
the de-assert write of "0", in that order and with nothing else between
them (the only event between the two writes is the hold sleep). -/
theorem c5_two_writes (c : DoorController) (d : Nat)
    (w1 w2 : WriteOutcome) (p : String) :
    writesOf
        (({ c with door_lock := false, led_path := some p }).openDoor
          d w1 w2 none).events = [("255", w1), ("0", w2)] ∧
    (({ c with door_lock := false, led_path := some p }).openDoor
        d w1 w2 none).events =
      [Event.write "255" w1, Event.sleep d, Event.write "0" w2] := by
  constructor <;> rfl

/-- Claim C6, counterexample: a raw fault during the hold sleep of an
admitted activation leaves `status` `true` after the call raises, even
though it was `false` at entry — the `finally` restores only the lock,
not the status. -/
theorem c6_counterexample :
    idleBound.status = false ∧
      (idleBound.openDoor 3 WriteOutcome.ok WriteOutcome.ok
          (some Step.sleepStep)).res = OpenRes.raised ∧
      (idleBound.openDoor 3 WriteOutcome.ok WriteOutcome.ok
          (some Step.sleepStep)).ctrl.status = true := by
  decide

/-- Claim C6, amended: after every completed activation `status` is
`false`, and a rejected call leaves `status` unchanged (so `false`
whenever it was `false` before, including before the first activation);
but an attempt terminated by an unexpected fault after the assert
(during the sleep, the de-assert write or the final status reset) leaves
`status` `true`, while a fault at or before the assert leaves it
unchanged. -/
theorem c6_amended_status (c : DoorController) (d : Nat)
    (w1 w2 : WriteOutcome) (f : Option Step) :
    (({ c with door_lock := true }).openDoor d w1 w2 f).ctrl.status =
        c.status ∧
    (({ c with door_lock := false }).openDoor d w1 w2 none).ctrl.status =
        false ∧
    (({ c with door_lock := false }).openDoor d w1 w2
        (some Step.assertWrite)).ctrl.status = c.status ∧
    (({ c with door_lock := false }).openDoor d w1 w2
        (some Step.statusTrue)).ctrl.status = c.status ∧
    (({ c with door_lock := false }).openDoor d w1 w2
        (some Step.sleepStep)).ctrl.status = true ∧
    (({ c with door_lock := false }).openDoor d w1 w2
        (some Step.deassertWrite)).ctrl.status = true ∧
    (({ c with door_lock := false }).openDoor d w1 w2
        (some Step.statusFalse)).ctrl.status = true :=
  ⟨rfl, rfl, rfl, rfl, rfl, rfl, rfl⟩

/-- Claim C7: `_set_led` clamps every integer argument into `[0, 255]`;
with no device bound it performs no write, and with a device bound it
performs exactly one write, of the decimal string of the clamped level,
whatever the write outcome (no retries). -/
theorem c7_set_led (c : DoorController) (b : Int) (w : WriteOutcome)
    (p : String) :
    ({ c with led_path := none }).set_led b w = [] ∧
    ({ c with led_path := some p }).set_led b w =
      [Event.write (toString (clampBrightness b)) w] ∧
    0 ≤ clampBrightness b ∧ clampBrightness b ≤ 255 := by
  refine ⟨rfl, rfl, le_max_left 0 _, max_le (by norm_num) (min_le_left _ _)⟩

/-- The write outcome never changes the shape of `_set_led`'s behaviour:
the failure is swallowed inside the method. -/
theorem set_led_shape (c : DoorController) (b : Int) (w w' : WriteOutcome) :
    (c.set_led b w).map eventShape = (c.set_led b w').map eventShape := by
  cases h : c.led_path <;> simp [DoorController.set_led, h, eventShape]

/-- Claim C8: no device-layer error propagates out of `_set_led` or
`open`.  `_set_led`'s behaviour has the same shape whatever the device
answers; a call of `open` under failing writes has the same final
instance state, the same return/raise outcome, and the same event shapes
as the call under succeeding writes; and concretely, an admitted
activation whose two writes fail with any mix of `PermissionError` and
other I/O errors still runs the full cycle — both write attempts, the
hold sleep, the status reset, the lock release, and the normal `None`
return. -/
theorem c8_errors_swallowed (c : DoorController) (d : Nat)
    (w1 w2 w w' : WriteOutcome) (b : Int) (p : String) :
    (c.set_led b w).map eventShape = (c.set_led b w').map eventShape ∧
    (c.openDoor d w1 w2 none).ctrl =
      (c.openDoor d WriteOutcome.ok WriteOutcome.ok none).ctrl ∧
    (c.openDoor d w1 w2 none).res =
      (c.openDoor d WriteOutcome.ok WriteOutcome.ok none).res ∧
    (c.openDoor d w1 w2 none).events.map eventShape =
      (c.openDoor d WriteOutcome.ok WriteOutcome.ok none).events.map
        eventShape ∧
    ({ c with door_lock := false, led_path := some p }).openDoor
        d w1 w2 none =
      { ctrl := { c with status := false, door_lock := false, led_path := some p }
        events := [Event.write "255" w1, Event.sleep d, Event.write "0" w2]
        res := OpenRes.ret PyVal.pynone } := by
  refine ⟨set_led_shape c b w w', ?_, ?_, ?_, rfl⟩ <;>
    · by_cases h : c.door_lock
      · simp [DoorController.openDoor, h]
      · simp only [DoorController.openDoor, h, if_false,
          runBody_none_openBody]
        simp [set_led_shape _ _ _ WriteOutcome.ok]

/-- Claim C9: construction never fails due to hardware absence.  When
the configured path exists the handle stays bound and a single de-assert
write of "0" is issued at once; when the path is configured but missing
the handle is dropped (simulated mode) with no write; when no path is
configured the instance is permanently simulated.  In every case a fully
initialized, unlocked instance with the requested status is produced. -/
theorem c9_construction (ex : String → Bool) (p : String) (st : Bool)
    (w : WriteOutcome) :
    DoorController.init (some p) ex st w =
      (if ex p then
        ({ initializedFlag := true, status := st, door_lock := false
           led_path := some p }, [Event.write "0" w])
      else
        ({ initializedFlag := true, status := st, door_lock := false
           led_path := none }, [])) ∧
    DoorController.init none ex st w =
      ({ initializedFlag := true, status := st, door_lock := false
         led_path := none }, []) :=
  ⟨rfl, rfl⟩

/-- Claim C10: `get_door_controller` is idempotent — once a global
instance exists, every further call returns that same instance with no
re-initialization (no events); after a call from any prior global state,
a second call (under any configuration or environment) returns the very
instance the first call produced.  Likewise, re-invoking `__init__` on an
already-initialized instance is a no-op on every field, because of the
`_initialized` guard. -/
theorem c10_singleton (c : DoorController) (cfg cfg2 : Option String)
    (ex ex2 : String → Bool) (st : Bool) (w w2 : WriteOutcome)
    (g : Option DoorController) :
    ({ c with initializedFlag := true }).init_on cfg ex st w =
      ({ c with initializedFlag := true }, []) ∧
    get_door_controller (some c) cfg ex w = (c, some c, []) ∧
    get_door_controller (get_door_controller g cfg ex w).2.1 cfg2 ex2 w2 =
      ((get_door_controller g cfg ex w).1,
       some (get_door_controller g cfg ex w).1, []) := by
  refine ⟨rfl, rfl, ?_⟩
  cases g <;> rfl

theorem exclusiveInv_init (n : Nat) : exclusiveInv (initSys n) := by
  refine ⟨fun i j hi _ => ?_, fun _ i => rfl, fun h => ?_⟩
  · simp [initSys, PC.isBody] at hi
  · simp [initSys] at h

theorem busyInv_init (n : Nat) : busyInv (initSys n) := by
  rintro ⟨i, hi⟩
  simp [initSys] at hi

/-- A scheduler step of thread `i` does not move any other thread. -/
theorem sysStep_pcs_other {n : Nat} (s : Sys n) (i j : Fin n)
    (hij : j ≠ i) : (sysStep s i).pcs j = s.pcs j := by
  rw [sysStep]
  cases hpc : s.pcs i with
  | trying =>
      by_cases hl : s.lock <;>
        simp [pcStep, hl, Function.update_noteq hij]
  | body rest =>
      cases rest <;> simp [pcStep, Function.update_noteq hij]
  | doneOk => rfl
  | doneBusy => rfl

/-- A rejected thread stays rejected. -/
theorem sysStep_pcs_busy {n : Nat} (s : Sys n) (i j : Fin n)
    (h : s.pcs j = PC.doneBusy) :
    (sysStep s i).pcs j = PC.doneBusy := by
  by_cases hij : j = i
  · subst hij
    rw [sysStep, h]
    exact h
  · rw [sysStep_pcs_other s i j hij]
    exact h

/-- An admitted thread stays in the admitted region until it completes;
it never becomes rejected or trying again. -/
theorem sysStep_pcs_bodylike {n : Nat} (s : Sys n) (i j : Fin n)
    (h : ((s.pcs j).isBody = true) ∨ s.pcs j = PC.doneOk) :
    (((sysStep s i).pcs j).isBody = true) ∨
      (sysStep s i).pcs j = PC.doneOk := by
  by_cases hij : j = i
  · subst hij
    cases hpc : s.pcs j with
    | trying => rw [hpc] at h; simp [PC.isBody] at h
    | doneOk =>
        right
        rw [sysStep, hpc]
        exact hpc
    | doneBusy => rw [hpc] at h; simp [PC.isBody] at h
    | body rest =>
        cases rest with
        | nil =>
            right
            simp [sysStep, hpc, pcStep]
        | cons st r =>
            left
            simp [sysStep, hpc, pcStep, PC.isBody]
  · rw [sysStep_pcs_other s i j hij]
    exact h

theorem runSys_pcs_busy {n : Nat} (s : Sys n) (j : Fin n)
    (h : s.pcs j = PC.doneBusy) (l : List (Fin n)) :
    (runSys s l).pcs j = PC.doneBusy := by
  induction l generalizing s with
  | nil => exact h
  | cons a l ih => exact ih _ (sysStep_pcs_busy s a j h)

theorem runSys_pcs_bodylike {n : Nat} (s : Sys n) (j : Fin n)
    (h : ((s.pcs j).isBody = true) ∨ s.pcs j = PC.doneOk)
    (l : List (Fin n)) :
    (((runSys s l).pcs j).isBody = true) ∨
      (runSys s l).pcs j = PC.doneOk := by
  induction l generalizing s with
  | nil => exact h
  | cons a l ih => exact ih _ (sysStep_pcs_bodylike s a j h)

/-- Transition: a try while the lock is held rejects the thread. -/
theorem sysStep_trying_locked {n : Nat} (s : Sys n) (i : Fin n)
    (hpc : s.pcs i = PC.trying) (hl : s.lock = true) :
    sysStep s i = { s with pcs := Function.update s.pcs i PC.doneBusy } := by
  rw [sysStep, hpc]
  simp [pcStep, hl]

/-- Transition: a try while the lock is free admits the thread. -/
theorem sysStep_trying_free {n : Nat} (s : Sys n) (i : Fin n)
    (hpc : s.pcs i = PC.trying) (hl : s.lock = false) :
    sysStep s i =
      { s with lock := true
               pcs := Function.update s.pcs i (PC.body openBody) } := by
  rw [sysStep, hpc]
  simp [pcStep, hl]

/-- Transition: the finally block releases the lock and the thread
returns completed. -/
theorem sysStep_body_nil {n : Nat} (s : Sys n) (i : Fin n)
    (hpc : s.pcs i = PC.body []) :
    sysStep s i =
      { s with lock := false
               pcs := Function.update s.pcs i PC.doneOk } := by
  rw [sysStep, hpc]
  rfl

/-- Transition: one statement of the try body runs. -/
theorem sysStep_body_cons {n : Nat} (s : Sys n) (i : Fin n)
    (st : Step) (rest : List Step) (hpc : s.pcs i = PC.body (st :: rest)) :
    sysStep s i =
      { s with status := stepStatus st s.status
               pcs := Function.update s.pcs i (PC.body rest) } := by
  rw [sysStep, hpc]
  rfl

/-- Transition: a completed thread does nothing more. -/
theorem sysStep_doneOk_eq {n : Nat} (s : Sys n) (i : Fin n)
    (hpc : s.pcs i = PC.doneOk) : sysStep s i = s := by
  rw [sysStep, hpc]
  rfl

/-- Transition: a rejected thread does nothing more. -/
theorem sysStep_doneBusy_eq {n : Nat} (s : Sys n) (i : Fin n)
    (hpc : s.pcs i = PC.doneBusy) : sysStep s i = s := by
  rw [sysStep, hpc]
  rfl

/-- An admitted thread can only exist while the lock is held. -/
theorem lock_of_body {n : Nat} (s : Sys n) (hs : exclusiveInv s)
    (i : Fin n) (hib : (s.pcs i).isBody = true) : s.lock = true := by
  cases hl : s.lock
  · have := hs.2.1 hl i
    rw [hib] at this
    exact absurd this (by simp)
  · rfl

/-- One scheduler step preserves the mutual-exclusion invariant. -/
theorem exclusiveInv_step {n : Nat} (s : Sys n) (hs : exclusiveInv s)
    (i : Fin n) : exclusiveInv (sysStep s i) := by
  obtain ⟨huniq, hfree, hheld⟩ := hs
  cases hpc : s.pcs i with
  | trying =>
      cases hl : s.lock
      · rw [sysStep_trying_free s i hpc hl]
        refine ⟨fun j k hj hk => ?_, fun h => by simp at h, fun _ => ?_⟩
        · simp only [Function.update_apply] at hj hk
          by_cases hji : j = i
          · by_cases hki : k = i
            · rw [hji, hki]
            · rw [if_neg hki] at hk
              exact absurd (hfree hl k) (by simp [hk])
          · rw [if_neg hji] at hj
            exact absurd (hfree hl j) (by simp [hj])
        · exact ⟨i, by simp [Function.update_same, PC.isBody]⟩
      · rw [sysStep_trying_locked s i hpc hl]
        refine ⟨fun j k hj hk => ?_, fun h => ?_, fun _ => ?_⟩
        · simp only [Function.update_apply] at hj hk
          by_cases hji : j = i
          · rw [if_pos hji] at hj
            exact absurd hj (by simp [PC.isBody])
          · by_cases hki : k = i
            · rw [if_pos hki] at hk
              exact absurd hk (by simp [PC.isBody])
            · rw [if_neg hji] at hj
              rw [if_neg hki] at hk
              exact huniq j k hj hk
        · have h' : s.lock = false := h
          rw [hl] at h'
          exact absurd h' (by simp)
        · obtain ⟨j, hj⟩ := hheld hl
          have hji : j ≠ i := by
            intro h
            rw [h, hpc] at hj
            exact absurd hj (by simp [PC.isBody])
          refine ⟨j, ?_⟩
          show (Function.update s.pcs i PC.doneBusy j).isBody = true
          rwa [Function.update_noteq hji]
  | body rest =>
      have hib : (s.pcs i).isBody = true := hpc ▸ rfl
      have hl : s.lock = true := lock_of_body s ⟨huniq, hfree, hheld⟩ i hib
      cases rest with
      | nil =>
          rw [sysStep_body_nil s i hpc]
          refine ⟨fun j k hj hk => ?_, fun _ j => ?_, fun h => ?_⟩
          · simp only [Function.update_apply] at hj hk
            by_cases hji : j = i
            · rw [if_pos hji] at hj
              exact absurd hj (by simp [PC.isBody])
            · by_cases hki : k = i
              · rw [if_pos hki] at hk
                exact absurd hk (by simp [PC.isBody])
              · rw [if_neg hji] at hj
                rw [if_neg hki] at hk
                exact huniq j k hj hk
          · show (Function.update s.pcs i PC.doneOk j).isBody = false
            rw [Function.update_apply]
            by_cases hji : j = i
            · rw [if_pos hji]
              rfl
            · rw [if_neg hji]
              cases hx : (s.pcs j).isBody
              · rfl
              · exact absurd (huniq j i hx hib) hji
          · have h' : (false : Bool) = true := h
            exact absurd h' (by simp)
      | cons st r =>
          rw [sysStep_body_cons s i st r hpc]
          refine ⟨fun j k hj hk => ?_, fun h => ?_, fun _ => ?_⟩
          · simp only [Function.update_apply] at hj hk
            by_cases hji : j = i
            · by_cases hki : k = i
              · rw [hji, hki]
              · rw [if_neg hki] at hk
                rw [hji]
                exact (huniq k i hk hib).symm ▸ rfl
            · rw [if_neg hji] at hj
              by_cases hki : k = i
              · rw [hki]
                exact huniq j i hj hib
              · rw [if_neg hki] at hk
                exact huniq j k hj hk
          · have h' : s.lock = false := h
            rw [hl] at h'
            exact absurd h' (by simp)
          · refine ⟨i, ?_⟩
            show (Function.update s.pcs i (PC.body r) i).isBody = true
            rw [Function.update_same]
            rfl
  | doneOk =>
      rw [sysStep_doneOk_eq s i hpc]
      exact ⟨huniq, hfree, hheld⟩
  | doneBusy =>
      rw [sysStep_doneBusy_eq s i hpc]
      exact ⟨huniq, hfree, hheld⟩

/-- One scheduler step preserves `busyInv`. -/
theorem busyInv_step {n : Nat} (s : Sys n) (hs : busyInv s) (i : Fin n) :
    busyInv (sysStep s i) := by
  cases hpc : s.pcs i with
  | trying =>
      cases hl : s.lock
      · rw [sysStep_trying_free s i hpc hl]
        intro _
        left
        rfl
      · rw [sysStep_trying_locked s i hpc hl]
        intro _
        left
        exact hl
  | body rest =>
      cases rest with
      | nil =>
          rw [sysStep_body_nil s i hpc]
          intro _
          right
          refine ⟨i, ?_⟩
          show Function.update s.pcs i PC.doneOk i = PC.doneOk
          rw [Function.update_same]
      | cons st r =>
          rw [sysStep_body_cons s i st r hpc]
          rintro ⟨j, hj⟩
          have hji : j ≠ i := (by
            intro h
            rw [h] at hj
            have hj' : Function.update s.pcs i (PC.body r) i = PC.doneBusy := hj
            rw [Function.update_same] at hj'
            exact absurd hj' (by simp))
          have hj' : s.pcs j = PC.doneBusy := (by
            have hx : Function.update s.pcs i (PC.body r) j = PC.doneBusy := hj
            rwa [Function.update_noteq hji] at hx)
          rcases hs ⟨j, hj'⟩ with hlock | ⟨k, hk⟩
          · left
            exact hlock
          · right
            have hki : k ≠ i := (by
              intro h
              rw [h, hpc] at hk
              exact absurd hk (by simp))
            refine ⟨k, ?_⟩
            show Function.update s.pcs i (PC.body r) k = PC.doneOk
            rwa [Function.update_noteq hki]
  | doneOk =>
      rw [sysStep_doneOk_eq s i hpc]
      exact hs
  | doneBusy =>
      rw [sysStep_doneBusy_eq s i hpc]
      exact hs

/-- The mutual-exclusion invariant holds along every schedule. -/
theorem exclusiveInv_run {n : Nat} (s : Sys n) (hs : exclusiveInv s)
    (l : List (Fin n)) : exclusiveInv (runSys s l) := by
  induction l generalizing s with
  | nil => exact hs
  | cons a l ih => exact ih _ (exclusiveInv_step s hs a)

/-- `busyInv` holds along every schedule. -/
theorem busyInv_run {n : Nat} (s : Sys n) (hs : busyInv s)
    (l : List (Fin n)) : busyInv (runSys s l) := by
  induction l generalizing s with
  | nil => exact hs
  | cons a l ih => exact ih _ (busyInv_step s hs a)

/-- Running an appended schedule is running the two parts in turn. -/
theorem runSys_append {n : Nat} (s : Sys n) (p q : List (Fin n)) :
    runSys s (p ++ q) = runSys (runSys s p) q :=
  List.foldl_append sysStep s p q

/-- Claim C3, mutual exclusion and the race outcome.  First conjunct: in
every state reachable by any schedule `r` from `n` threads racing an
idle gate, at most one thread is between the successful acquire and the
release.  Second conjunct: for any racing window — a schedule prefix `p`
after which every thread has taken its admission attempt (none still
`trying`) while no release has yet happened (none `doneOk`) — once the
rest `q` of the schedule has run everyone to completion, exactly one
thread has run the full assert/hold/de-assert cycle (`doneOk`) and each
of the other `n − 1` threads was rejected (`doneBusy`).  Third conjunct:
rejection is immediate and non-blocking — a thread that tries while the
lock is held moves to returned-rejected in that single atomic step. -/
theorem c3_exclusive_and_race (n : Nat) (r p q : List (Fin n))
    (i j : Fin n) (hn : 0 < n)
    (hi : ((runSys (initSys n) r).pcs i).isBody = true)
    (hj : ((runSys (initSys n) r).pcs j).isBody = true)
    (hatt : ∀ k : Fin n, (runSys (initSys n) p).pcs k ≠ PC.trying)
    (hnorel : ∀ k : Fin n, (runSys (initSys n) p).pcs k ≠ PC.doneOk)
    (hdone : ∀ k : Fin n,
      (runSys (initSys n) (p ++ q)).pcs k = PC.doneOk ∨
        (runSys (initSys n) (p ++ q)).pcs k = PC.doneBusy) :
    i = j ∧
      (∃ w : Fin n, (runSys (initSys n) (p ++ q)).pcs w = PC.doneOk ∧
        ∀ k : Fin n, k ≠ w →
          (runSys (initSys n) (p ++ q)).pcs k = PC.doneBusy) ∧
      (∀ (s : Sys n) (k : Fin n), s.pcs k = PC.trying → s.lock = true →
        (sysStep s k).pcs k = PC.doneBusy) := by
  have hex := exclusiveInv_run (initSys n) (exclusiveInv_init n) p
  have hbusy := busyInv_run (initSys n) (busyInv_init n) p
  have hexr := exclusiveInv_run (initSys n) (exclusiveInv_init n) r
  have happ : runSys (initSys n) (p ++ q) =
      runSys (runSys (initSys n) p) q := runSys_append _ p q
  refine ⟨hexr.1 i j hi hj, ?_, ?_⟩
  · have hwin : ∃ w : Fin n,
        ((runSys (initSys n) p).pcs w).isBody = true := by
      by_contra hno
      push_neg at hno
      have hallbusy : ∀ k : Fin n,
          (runSys (initSys n) p).pcs k = PC.doneBusy := by
        intro k
        cases hpc : (runSys (initSys n) p).pcs k with
        | trying => exact absurd hpc (hatt k)
        | doneOk => exact absurd hpc (hnorel k)
        | doneBusy => rfl
        | body rest => exact absurd (hpc ▸ rfl) (hno k)
      rcases hbusy ⟨⟨0, hn⟩, hallbusy ⟨0, hn⟩⟩ with hlock | ⟨k, hk⟩
      · obtain ⟨m, hm⟩ := hex.2.2 hlock
        rw [hallbusy m] at hm
        exact absurd hm (by simp [PC.isBody])
      · exact absurd hk (hnorel k)
    obtain ⟨w, hw⟩ := hwin
    have hother : ∀ k : Fin n, k ≠ w →
        (runSys (initSys n) p).pcs k = PC.doneBusy := by
      intro k hkw
      cases hpc : (runSys (initSys n) p).pcs k with
      | trying => exact absurd hpc (hatt k)
      | doneOk => exact absurd hpc (hnorel k)
      | doneBusy => rfl
      | body rest => exact absurd (hex.1 k w (hpc ▸ rfl) hw) hkw
    refine ⟨w, ?_, ?_⟩
    · have hwq := runSys_pcs_bodylike (runSys (initSys n) p) w
        (Or.inl hw) q
      rw [← happ] at hwq
      rcases hdone w with hOk | hBusy
      · exact hOk
      · rw [hBusy] at hwq
        rcases hwq with h1 | h1 <;> exact absurd h1 (by simp [PC.isBody])
    · intro k hkw
      have hkq := runSys_pcs_busy (runSys (initSys n) p) k
        (hother k hkw) q
      rwa [← happ] at hkq
  · intro s k hpc hl
    rw [sysStep_trying_locked s k hpc hl]
    exact Function.update_same k PC.doneBusy s.pcs

/-- Claim C3, witness: three threads, thread 0 admitted first, threads 1
and 2 each rejected at their single attempt, then thread 0 runs its body
to completion — exactly one `doneOk`, two `doneBusy`. -/
theorem c3_exclusive_and_race_witness :
    (0 : Fin 3) = (0 : Fin 3) ∧
      (∃ w : Fin 3,
        (runSys (initSys 3) ([0, 1, 2] ++ [0, 0, 0, 0, 0, 0])).pcs w =
          PC.doneOk ∧
        ∀ k : Fin 3, k ≠ w →
          (runSys (initSys 3) ([0, 1, 2] ++ [0, 0, 0, 0, 0, 0])).pcs k =
            PC.doneBusy) ∧
      (∀ (s : Sys 3) (k : Fin 3), s.pcs k = PC.trying → s.lock = true →
        (sysStep s k).pcs k = PC.doneBusy) :=
  c3_exclusive_and_race 3 [0] [0, 1, 2] [0, 0, 0, 0, 0, 0] 0 0
    (by decide) (by decide) (by decide) (by decide) (by decide) (by decide)

